import Mathlib

/-!
Shallow embedding of `src/mqtt.c` (iquidus/dagd): the topic-message
decoding state machine, the session state, the notification registry and
the rate-limited outbound status publisher.

C machine integers are modelled as `Nat`/`Int` with explicit reductions:
`unsigned long` (the result of `strtoul`) clamps at `ULONG_MAX` on
overflow, `unsigned` values are taken mod 2^32, and the `uint16_t` field
`curr_epoch` stores values mod 2^16.  C strings are `List Char` (the NUL
terminator is the end of the list); payloads are `String`s.
-/

namespace Dagd

/-- Modelled from the spec: `enum mqtt_notify_type` is declared in
`mqtt.h`, which is not part of the sources; the spec describes it as the
closed set {epoch-changed, mined-state-changed, shutdown-requested}. -/
inductive mqtt_notify_type where
  | epoch
  | mined_state
  | shutdown
deriving DecidableEq, Repr

/-- Topic `/mine/epoch` (`MQTT_TOPIC_EPOCH` in mqtt.c). -/
def MQTT_TOPIC_EPOCH : String := "/mine/epoch"

/-- Topic `/mine/dag-cache` (`MQTT_TOPIC_CACHE`). -/
def MQTT_TOPIC_CACHE : String := "/mine/dag-cache"

/-- Topic `/sys/shutdown` (`MQTT_TOPIC_SHUTDOWN`). -/
def MQTT_TOPIC_SHUTDOWN : String := "/sys/shutdown"

/-- Topic `/mine/mined-state` (`MQTT_TOPIC_MINED_STATE`). -/
def MQTT_TOPIC_MINED_STATE : String := "/mine/mined-state"

/-- The literal `HOLD_STATE` = `"epoch_upload "` (trailing space included). -/
def HOLD_STATE : String := "epoch_upload "

/-- `ULONG_MAX` for the 64-bit `unsigned long` returned by `strtoul`. -/
def ULONG_MAX : Nat := 18446744073709551615

/-- 2^32, the modulus of the C type `unsigned` (variable `n` in `message`). -/
def UINT_MOD : Nat := 4294967296

/-- 2^16, the modulus of the C type `uint16_t` (variable `curr_epoch`). -/
def UINT16_MOD : Nat := 65536

/-- The globals of mqtt.c that form the session state:
`shutdown_pending`, `hold`, `curr_algo`, `curr_epoch`, `curr_block`. -/
structure MqttState where
  shutdown_pending : Bool
  hold : Bool
  curr_algo : Int
  curr_epoch : Nat
  curr_block : Nat
deriving DecidableEq, Repr

/-- Initial values of the globals: `false`, `false`, `-1`, `0`, `0`. -/
def initState : MqttState :=
  { shutdown_pending := false, hold := false, curr_algo := -1,
    curr_epoch := 0, curr_block := 0 }

/-- Modelled from the spec: the external algorithm lookup collaborator
(`dagalgo_code` and the constant `da_ethash` from `linzhi/dagalgo.h`,
outside this repository): `resolve(name) -> code or not-found`, where
not-found is a negative code, and `da_ethash` is the fixed baseline
algorithm code. -/
structure Lookup where
  dagalgo_code : String → Int
  da_ethash : Int

/- ----- strtoul(buf, &end, 0), C11 semantics -------------------------- -/

/-- C `isspace` in the default locale. -/
def isSpaceC (c : Char) : Bool :=
  c = ' ' || c = '\t' || c = '\n' || c = '\x0b' || c = '\x0c' || c = '\r'

/-- Value of a hexadecimal digit character, if it is one. -/
def hexDigitVal (c : Char) : Option Nat :=
  if '0' ≤ c ∧ c ≤ '9' then some (c.toNat - '0'.toNat)
  else if 'a' ≤ c ∧ c ≤ 'f' then some (c.toNat - 'a'.toNat + 10)
  else if 'A' ≤ c ∧ c ≤ 'F' then some (c.toNat - 'A'.toNat + 10)
  else none

/-- Digit value of `c` in `base` (bases up to 16), if valid. -/
def digitInBase (base : Nat) (c : Char) : Option Nat :=
  match hexDigitVal c with
  | some d => if d < base then some d else none
  | none => none

/-- Consume the maximal run of digits of `base`, accumulating the value;
returns the value and the unconsumed rest (the `end` pointer). -/
def takeDigits (base : Nat) (acc : Nat) : List Char → Nat × List Char
  | [] => (acc, [])
  | c :: r =>
    match digitInBase base c with
    | some d => takeDigits base (acc * base + d) r
    | none => (acc, c :: r)

/-- Decimal digit test, used to decide whether a base-0 subject starts. -/
def isDecDigit (c : Char) : Bool := '0' ≤ c ∧ c ≤ '9'

/-- The subject parse of `strtoul(s, end, 0)` after whitespace and sign:
hexadecimal after a `0x`/`0X` prefix followed by a hex digit, octal after
a leading `0`, decimal otherwise; `none` when no conversion is possible. -/
def strtoulSubject : List Char → Option (Nat × List Char)
  | '0' :: 'x' :: d :: r =>
    if (hexDigitVal d).isSome then some (takeDigits 16 0 (d :: r))
    else some (takeDigits 8 0 ('0' :: 'x' :: d :: r))
  | '0' :: 'X' :: d :: r =>
    if (hexDigitVal d).isSome then some (takeDigits 16 0 (d :: r))
    else some (takeDigits 8 0 ('0' :: 'X' :: d :: r))
  | '0' :: r => some (takeDigits 8 0 ('0' :: r))
  | c :: r => if isDecDigit c then some (takeDigits 10 0 (c :: r)) else none
  | [] => none

/-- The optional sign before the subject sequence of `strtoul`. -/
def signStrip : List Char → Bool × List Char
  | '-' :: r => (true, r)
  | '+' :: r => (false, r)
  | ws => (false, ws)

/-- `strtoul(cs, &end, 0)`: skip whitespace, optional sign, parse the
longest subject in the deduced base.  When the parsed magnitude exceeds
`ULONG_MAX` the result is `ULONG_MAX` (C11 7.22.1.4: the range check
precedes negation); otherwise a minus sign negates the value as
unsigned.  Returns the value and the rest of the string from `end`;
when no conversion is possible the value is `0` and `end` is the
original start of the string. -/
def strtoul (cs : List Char) : Nat × List Char :=
  let ss := signStrip (cs.dropWhile isSpaceC)
  match strtoulSubject ss.2 with
  | none => (0, cs)
  | some (v, rest) =>
    (if v > ULONG_MAX then ULONG_MAX
     else if ss.1 then (ULONG_MAX + 1 - v) % (ULONG_MAX + 1)
     else v, rest)

/- ----- Notifications ------------------------------------------------- -/

/-- `struct subscription`: an event kind, a callback function pointer and
an opaque user context.  The callback and context types are abstract. -/
structure subscription (F U : Type) where
  type : mqtt_notify_type
  fn : F
  user : U
deriving DecidableEq, Repr

/-- `notify(type)`: walk the subscription array in order and, for each
entry whose kind matches, call `s->fn(s->user)`.  The result is the trace
of calls made, in order: the (callback, context) pairs invoked. -/
def notify {F U : Type} (sub : List (subscription F U))
    (type : mqtt_notify_type) : List (F × U) :=
  (sub.filter (fun s => s.type = type)).map (fun s => (s.fn, s.user))

/-- `mqtt_subscribe(type, fn, user)`: grow the array by one and append
the new registration at the end. -/
def mqtt_subscribe {F U : Type} (sub : List (subscription F U))
    (type : mqtt_notify_type) (fn : F) (user : U) : List (subscription F U) :=
  sub ++ [{ type := type, fn := fn, user := user }]

/- ----- MQTT transmission --------------------------------------------- -/

/-- `mqtt_status(mqtt, s, flush)`: rate-limit to one publish per
wall-clock second unless `flush` is set.  `last` is the static variable
holding the second of the last non-suppressed call, `t` the current
`time()`, and `pub_result` the transport's result code for the publish
(used only for logging in the C).  Returns the new `last` and whether
`mosquitto_publish` was invoked (a transport delivery). -/
def mqtt_status (last : Nat) (t : Nat) (flush : Bool) (pub_result : Int) :
    Nat × Bool :=
  if t = last ∧ flush = false then (last, false)
  else (t, true)

/-- Fold `mqtt_status` over a list of calls `(t, flush, pub_result)`,
returning the final `last` and the per-call delivery flags in order. -/
def mqtt_status_run (last : Nat) :
    List (Nat × Bool × Int) → Nat × List Bool
  | [] => (last, [])
  | (t, flush, r) :: calls =>
    let step := mqtt_status last t flush r
    let rec_result := mqtt_status_run step.1 calls
    (rec_result.1, step.2 :: rec_result.2)

/- ----- MQTT reception ------------------------------------------------ -/

/-- The `strchr(names, ' ')` step of `process_epoch`: the tail of the C
string after the first space, or `none` when there is no space
("algorithm name missing in epoch"). -/
def afterFirstSpace : List Char → Option (List Char)
  | [] => none
  | c :: r => if c = ' ' then some r else afterFirstSpace r

/-- The algorithm-resolution half of `process_epoch(n, names)`: with a
`names` argument, the name is everything after the first space in
`names` and must resolve to a nonnegative code via `dagalgo_code`; with
`names == NULL` the algorithm is `da_ethash`.  `none` is the early
`return` (message dropped). -/
def epochAlgo (L : Lookup) : Option (List Char) → Option Int
  | some names =>
    match afterFirstSpace names with
    | none => none
    | some nm =>
      let algo := L.dagalgo_code (String.mk nm)
      if algo < 0 then none else some algo
  | none => some L.da_ethash

/-- `process_epoch(n, names)`: resolve the algorithm; if both the
resolved code and `n` equal the current values, return silently;
otherwise store the code in `curr_algo`, store `n` in the `uint16_t`
`curr_epoch` (mod 2^16) and fire `notify(mqtt_notify_epoch)`.  Returns
the new state and the notifications dispatched. -/
def process_epoch (L : Lookup) (s : MqttState) (n : Nat)
    (names : Option (List Char)) : MqttState × List mqtt_notify_type :=
  match epochAlgo L names with
  | none => (s, [])
  | some algo =>
    if algo = s.curr_algo ∧ n = s.curr_epoch then (s, [])
    else ({ s with curr_algo := algo, curr_epoch := n % UINT16_MOD },
          [mqtt_notify_type.epoch])

/-- Body of the `message` callback after topic classification, operating
on the NUL-terminated copy `buf` of the payload.  Mirrors mqtt.c: the
mined-state branch tests the `HOLD_STATE` prefix with `strncmp`, stores
it in `hold` and always notifies; the numeric branches run
`strtoul(buf, &end, 0)` into the `unsigned` variable `n`, drop the
message when `*end` is neither NUL nor a space, then either hand off to
`process_epoch` (with `end + 1` when `*end` is nonzero) or set
`shutdown_pending = n` and always notify. -/
def messageTyped (L : Lookup) (s : MqttState) (type : mqtt_notify_type)
    (buf : List Char) : MqttState × List mqtt_notify_type :=
  if type = mqtt_notify_type.mined_state then
    let next_hold := List.isPrefixOf HOLD_STATE.data buf
    ({ s with hold := next_hold }, [mqtt_notify_type.mined_state])
  else
    let parsed := strtoul buf
    let n := parsed.1 % UINT_MOD
    match parsed.2 with
    | c :: r =>
      if c ≠ ' ' then (s, [])
      else if type = mqtt_notify_type.epoch then
        process_epoch L s n (some r)
      else
        ({ s with shutdown_pending := decide (n ≠ 0) },
         [mqtt_notify_type.shutdown])
    | [] =>
      if type = mqtt_notify_type.epoch then
        process_epoch L s n none
      else
        ({ s with shutdown_pending := decide (n ≠ 0) },
         [mqtt_notify_type.shutdown])

/-- The `message` callback: classify the topic by string comparison
(unknown topics are dropped), copy the payload into a NUL-terminated
buffer and process it.  Returns the new session state and the trace of
notification kinds dispatched. -/
def message (L : Lookup) (s : MqttState) (topic : String)
    (payload : String) : MqttState × List mqtt_notify_type :=
  if topic = MQTT_TOPIC_EPOCH then
    messageTyped L s mqtt_notify_type.epoch payload.data
  else if topic = MQTT_TOPIC_MINED_STATE then
    messageTyped L s mqtt_notify_type.mined_state payload.data
  else if topic = MQTT_TOPIC_SHUTDOWN then
    messageTyped L s mqtt_notify_type.shutdown payload.data
  else (s, [])

/-- Process a list of inbound `(topic, payload)` messages in order,
collecting the dispatched notifications. -/
def run (L : Lookup) (s : MqttState) :
    List (String × String) → MqttState × List mqtt_notify_type
  | [] => (s, [])
  | (t, p) :: ms =>
    let step := message L s t p
    let rest := run L step.1 ms
    (rest.1, step.2 ++ rest.2)

/-- A concrete instance of the external lookup, used to exhibit concrete
runs: `"ethash"` resolves to code 0 (the baseline), everything else is
not found. -/
def L0 : Lookup :=
  { dagalgo_code := fun s => if s = "ethash" then 0 else -1, da_ethash := 0 }

/- ----- Unfolding lemmas ---------------------------------------------- -/

theorem message_on_epoch (L : Lookup) (s : MqttState) (p : String) :
    message L s MQTT_TOPIC_EPOCH p
      = messageTyped L s mqtt_notify_type.epoch p.data := by
  rw [message, if_pos rfl]

theorem message_on_mined (L : Lookup) (s : MqttState) (p : String) :
    message L s MQTT_TOPIC_MINED_STATE p
      = messageTyped L s mqtt_notify_type.mined_state p.data := by
  rw [message, if_neg (by decide), if_pos rfl]

theorem message_on_shutdown (L : Lookup) (s : MqttState) (p : String) :
    message L s MQTT_TOPIC_SHUTDOWN p
      = messageTyped L s mqtt_notify_type.shutdown p.data := by
  rw [message, if_neg (by decide), if_neg (by decide), if_pos rfl]

theorem messageTyped_bad_trailer (L : Lookup) (s : MqttState)
    (t : mqtt_notify_type) (ht : t ≠ mqtt_notify_type.mined_state)
    (buf : List Char) (v : Nat) (c : Char) (r : List Char)
    (hp : strtoul buf = (v, c :: r)) (hc : c ≠ ' ') :
    messageTyped L s t buf = (s, []) := by
  rw [messageTyped, if_neg ht]
  simp only [hp, if_pos hc]

theorem messageTyped_shutdown_sep (L : Lookup) (s : MqttState)
    (buf : List Char) (v : Nat) (r : List Char)
    (hp : strtoul buf = (v, ' ' :: r)) :
    messageTyped L s mqtt_notify_type.shutdown buf
      = ({ s with shutdown_pending := decide (v % UINT_MOD ≠ 0) },
         [mqtt_notify_type.shutdown]) := by
  rw [messageTyped, if_neg (by decide)]
  simp only [hp]
  rw [if_neg (by simp), if_neg (by decide)]

theorem messageTyped_shutdown_nil (L : Lookup) (s : MqttState)
    (buf : List Char) (v : Nat) (hp : strtoul buf = (v, [])) :
    messageTyped L s mqtt_notify_type.shutdown buf
      = ({ s with shutdown_pending := decide (v % UINT_MOD ≠ 0) },
         [mqtt_notify_type.shutdown]) := by
  rw [messageTyped, if_neg (by decide)]
  simp only [hp]
  rw [if_neg (by decide)]

theorem messageTyped_epoch_sep (L : Lookup) (s : MqttState)
    (buf : List Char) (v : Nat) (r : List Char)
    (hp : strtoul buf = (v, ' ' :: r)) :
    messageTyped L s mqtt_notify_type.epoch buf
      = process_epoch L s (v % UINT_MOD) (some r) := by
  rw [messageTyped, if_neg (by decide)]
  simp only [hp]
  rw [if_neg (by simp)]
  simp

theorem messageTyped_epoch_nil (L : Lookup) (s : MqttState)
    (buf : List Char) (v : Nat) (hp : strtoul buf = (v, [])) :
    messageTyped L s mqtt_notify_type.epoch buf
      = process_epoch L s (v % UINT_MOD) none := by
  rw [messageTyped, if_neg (by decide)]
  simp only [hp]
  simp

/- ----- Delivery counting for the status publisher -------------------- -/

/-- Number of calls in `calls` made at second `t` for which the run of
`mqtt_status` starting from `last` performed a transport delivery. -/
def deliveriesAt (t last : Nat) (calls : List (Nat × Bool × Int)) : Nat :=
  (calls.zip (mqtt_status_run last calls).2).countP
    (fun p => decide (p.1.1 = t) && p.2)

theorem deliveriesAt_cons (t last t0 : Nat) (fl : Bool) (r : Int)
    (calls : List (Nat × Bool × Int)) :
    deliveriesAt t last ((t0, fl, r) :: calls)
      = (if t0 = t ∧ (mqtt_status last t0 fl r).2 = true then 1 else 0)
        + deliveriesAt t (mqtt_status last t0 fl r).1 calls := by
  simp only [deliveriesAt, mqtt_status_run, List.zip_cons_cons, List.countP_cons]
  by_cases h1 : t0 = t <;> by_cases h2 : (mqtt_status last t0 fl r).2 = true <;>
    simp [h1, h2] <;> omega

theorem deliveriesAt_eq_zero_of_absent (t last : Nat)
    (calls : List (Nat × Bool × Int)) (h : ∀ c ∈ calls, c.1 ≠ t) :
    deliveriesAt t last calls = 0 := by
  induction calls generalizing last with
  | nil => rfl
  | cons c rest ih =>
    obtain ⟨t0, fl, r⟩ := c
    rw [deliveriesAt_cons,
      if_neg (fun hc => h (t0, fl, r) (List.mem_cons_self _ _) hc.1),
      ih _ (fun c hc => h c (List.mem_cons_of_mem _ hc))]

theorem deliveriesAt_eq_zero_of_caught_up (t : Nat)
    (calls : List (Nat × Bool × Int))
    (hsort : calls.Pairwise (fun a b => a.1 ≤ b.1))
    (hfl : ∀ c ∈ calls, c.2.1 = false)
    (hge : ∀ c ∈ calls, t ≤ c.1) :
    deliveriesAt t t calls = 0 := by
  induction calls with
  | nil => rfl
  | cons c rest ih =>
    obtain ⟨t0, fl, r⟩ := c
    have hfl0 : fl = false := hfl _ (List.mem_cons_self _ _)
    subst hfl0
    rw [deliveriesAt_cons]
    have hget : t ≤ t0 := hge (t0, false, r) (List.mem_cons_self _ _)
    rcases Nat.eq_or_lt_of_le hget with heq | hlt
    · have hstep : mqtt_status t t0 false r = (t, false) := by
        simp only [mqtt_status]
        rw [if_pos ⟨heq.symm, trivial⟩]
      rw [hstep]
      rw [if_neg (fun hc => by exact absurd hc.2 (by simp)), Nat.zero_add]
      exact ih hsort.tail (fun c hc => hfl c (List.mem_cons_of_mem _ hc))
        (fun c hc => hge c (List.mem_cons_of_mem _ hc))
    · have hstep : mqtt_status t t0 false r = (t0, true) := by
        simp only [mqtt_status]
        rw [if_neg (fun hc => absurd hc.1 (by omega))]
      rw [hstep]
      rw [if_neg (fun hc => absurd hc.1 (by omega)), Nat.zero_add]
      exact deliveriesAt_eq_zero_of_absent t t0 rest
        (fun c hc => by
          have h1 : t0 ≤ c.1 := (List.pairwise_cons.mp hsort).1 c hc
          omega)

theorem deliveriesAt_le_one (t last : Nat)
    (calls : List (Nat × Bool × Int))
    (hsort : calls.Pairwise (fun a b => a.1 ≤ b.1))
    (hfl : ∀ c ∈ calls, c.2.1 = false) :
    deliveriesAt t last calls ≤ 1 := by
  induction calls generalizing last with
  | nil => exact Nat.zero_le 1
  | cons c rest ih =>
    obtain ⟨t0, fl, r⟩ := c
    have hfl0 : fl = false := hfl _ (List.mem_cons_self _ _)
    subst hfl0
    rw [deliveriesAt_cons]
    by_cases h0 : t0 = last
    · have hstep : mqtt_status last t0 false r = (last, false) := by
        simp only [mqtt_status]
        rw [if_pos ⟨h0, trivial⟩]
      rw [hstep]
      rw [if_neg (fun hc => by exact absurd hc.2 (by simp)), Nat.zero_add]
      exact ih last hsort.tail (fun c hc => hfl c (List.mem_cons_of_mem _ hc))
    · have hstep : mqtt_status last t0 false r = (t0, true) := by
        simp only [mqtt_status]
        rw [if_neg (fun hc => absurd hc.1 h0)]
      rw [hstep]
      by_cases ht : t0 = t
      · rw [if_pos ⟨ht, rfl⟩]
        have hz : deliveriesAt t t rest = 0 :=
          deliveriesAt_eq_zero_of_caught_up t rest hsort.tail
            (fun c hc => hfl c (List.mem_cons_of_mem _ hc))
            (fun c hc => ht ▸ (List.pairwise_cons.mp hsort).1 c hc)
        have hz2 : deliveriesAt t ((t0, true) : Nat × Bool).1 rest = 0 := by
          simpa [ht] using hz
        omega
      · rw [if_neg (fun hc => ht hc.1), Nat.zero_add]
        exact ih t0 hsort.tail (fun c hc => hfl c (List.mem_cons_of_mem _ hc))

/- ----- Claim theorems ------------------------------------------------ -/

/-- C7: without `force`, two `mqtt_status` calls in the same wall-clock
second (the second of which is fresh, i.e. no delivery is recorded for
it yet) produce exactly one transport delivery; with `force` both calls
deliver; and over any chronologically ordered sequence of non-forced
calls, at most one delivery happens per wall-clock second. -/
theorem claim_C7 :
    (∀ (last t : Nat) (r1 r2 : Int), last ≠ t →
      (mqtt_status_run last [(t, false, r1), (t, false, r2)]).2
        = [true, false])
    ∧ (∀ (last t : Nat) (r1 r2 : Int),
      (mqtt_status_run last [(t, true, r1), (t, true, r2)]).2
        = [true, true])
    ∧ (∀ (t last : Nat) (calls : List (Nat × Bool × Int)),
      calls.Pairwise (fun a b => a.1 ≤ b.1) →
      (∀ c ∈ calls, c.2.1 = false) →
      deliveriesAt t last calls ≤ 1) := by
  refine ⟨?_, ?_, deliveriesAt_le_one⟩
  · intro last t r1 r2 h
    simp [mqtt_status_run, mqtt_status, Ne.symm h]
  · intro last t r1 r2
    simp [mqtt_status_run, mqtt_status]

/-- C7 witness: a concrete fresh second, two non-forced calls, one
delivery; and the at-most-one bound at a concrete call list. -/
theorem claim_C7_witness :
    (mqtt_status_run 0 [(5, false, 0), (5, false, 0)]).2 = [true, false]
    ∧ (mqtt_status_run 0 [(5, true, 0), (5, true, 0)]).2 = [true, true]
    ∧ deliveriesAt 5 0 [(5, false, 0), (5, false, 0), (6, false, 0)] ≤ 1 :=
  ⟨claim_C7.1 0 5 0 0 (by decide), claim_C7.2.1 0 5 0 0,
   claim_C7.2.2 5 0 [(5, false, 0), (5, false, 0), (6, false, 0)]
     (by simp) (by simp)⟩

/-- C8: registration appends to the list (never deduplicates) and
dispatch invokes exactly the callbacks registered for the dispatched
kind, in registration order, with their registered contexts; two
callbacks registered for the same kind are both invoked, in order. -/
theorem claim_C8 : ∀ (F U : Type) (subs : List (subscription F U))
    (k k' : mqtt_notify_type) (f f1 f2 : F) (u u1 u2 : U),
    (mqtt_subscribe subs k f u).length = subs.length + 1
    ∧ notify (mqtt_subscribe subs k f u) k = notify subs k ++ [(f, u)]
    ∧ (k' ≠ k → notify (mqtt_subscribe subs k f u) k' = notify subs k')
    ∧ notify (mqtt_subscribe (mqtt_subscribe subs k f1 u1) k f2 u2) k
        = notify subs k ++ [(f1, u1), (f2, u2)] := by
  intro F U subs k k' f f1 f2 u u1 u2
  refine ⟨by simp [mqtt_subscribe], ?_, ?_, ?_⟩
  · simp [mqtt_subscribe, notify, List.filter_append]
  · intro hk
    simp [mqtt_subscribe, notify, List.filter_append, Ne.symm hk]
  · simp [mqtt_subscribe, notify, List.filter_append]

/-- C8 witness: two registrations for the epoch kind are both invoked in
order, and a dispatch of a different kind invokes neither. -/
theorem claim_C8_witness :
    notify (mqtt_subscribe (mqtt_subscribe ([] : List (subscription Nat Nat))
        mqtt_notify_type.epoch 1 10) mqtt_notify_type.epoch 2 20)
      mqtt_notify_type.epoch = [(1, 10), (2, 20)]
    ∧ notify (mqtt_subscribe ([] : List (subscription Nat Nat))
        mqtt_notify_type.epoch 1 10) mqtt_notify_type.shutdown = [] := by
  have h := claim_C8 Nat Nat [] mqtt_notify_type.epoch
    mqtt_notify_type.shutdown 1 1 2 10 10 20
  exact ⟨by simpa using h.2.2.2, by simpa using h.2.2.1 (by decide)⟩

/-- C10: whenever a status call passes the rate-limit gate, the `last`
timestamp becomes the current second and the whole step is independent
of the transport's result code; consequently a later non-forced call in
the same second is suppressed even if the earlier publish failed. -/
theorem claim_C10 : ∀ (last t : Nat) (flush : Bool) (r r2 : Int),
    (¬(t = last ∧ flush = false) →
      (mqtt_status last t flush r).1 = t
      ∧ (mqtt_status last t flush r).2 = true
      ∧ mqtt_status last t flush r = mqtt_status last t flush r2)
    ∧ ((mqtt_status last t flush r).2 = true →
      (mqtt_status (mqtt_status last t flush r).1 t false r2).2 = false) := by
  intro last t flush r r2
  constructor
  · intro h
    simp [mqtt_status, h]
  · intro h
    by_cases hc : t = last ∧ flush = false
    · simp [mqtt_status, hc] at h
    · simp [mqtt_status, hc]

/-- C10 witness: a non-forced call in a fresh second with a failing
transport result (-1) still advances `last` to the current second, and
the next non-forced call in that second delivers nothing. -/
theorem claim_C10_witness :
    (mqtt_status 0 5 false (-1)).1 = 5
    ∧ (mqtt_status (mqtt_status 0 5 false (-1)).1 5 false 0).2 = false := by
  have h := claim_C10 0 5 false (-1) 0
  exact ⟨(h.1 (by decide)).1, h.2 (h.1 (by decide)).2.1⟩

/-- C2 counterexample: from the initial state (hold flag false), the
mined-state payload "other" decodes to holding=false — equal to the
current hold flag — yet a mined-state notification IS dispatched, so
notification is not conditioned on the boolean differing. -/
theorem claim_C2_cex :
    (message L0 initState MQTT_TOPIC_MINED_STATE "other").1.hold
      = initState.hold
    ∧ (message L0 initState MQTT_TOPIC_MINED_STATE "other").2
      = [mqtt_notify_type.mined_state] := by
  exact ⟨by decide, by decide⟩

/-- C2 (amended): the decoded holding boolean is true iff the payload
begins with the literal prefix "epoch_upload " (trailing space
included); the hold flag is updated to that boolean and a mined-state
notification is dispatched on EVERY mined-state message, whether or not
the boolean differs from the current hold flag (the difference only
selects a debug log line). -/
theorem claim_C2 : ∀ (L : Lookup) (s : MqttState) (payload : String),
    message L s MQTT_TOPIC_MINED_STATE payload
      = ({ s with hold := List.isPrefixOf HOLD_STATE.data payload.data },
         [mqtt_notify_type.mined_state])
    ∧ ((message L s MQTT_TOPIC_MINED_STATE payload).1.hold = true
        ↔ HOLD_STATE.data <+: payload.data) := by
  intro L s payload
  have h := message_on_mined L s payload
  refine ⟨by rw [h, messageTyped, if_pos rfl], ?_⟩
  rw [h, messageTyped, if_pos rfl]
  simp [List.isPrefixOf_iff_prefix]

/-- C3: a successfully parsed shutdown payload always sets the pending
flag to the truthiness of the parsed unsigned value and always fires a
shutdown notification, with no change-suppression; the payload sequence
"0", "1", "1" produces exactly three notifications with pending values
false, true, true. -/
theorem claim_C3 :
    (∀ (L : Lookup) (s : MqttState) (payload : String) (v : Nat)
      (rest : List Char), strtoul payload.data = (v, rest) →
      (rest = [] ∨ ∃ r, rest = ' ' :: r) →
      message L s MQTT_TOPIC_SHUTDOWN payload
        = ({ s with shutdown_pending := decide (v % UINT_MOD ≠ 0) },
           [mqtt_notify_type.shutdown]))
    ∧ (run L0 initState [(MQTT_TOPIC_SHUTDOWN, "0"),
        (MQTT_TOPIC_SHUTDOWN, "1"), (MQTT_TOPIC_SHUTDOWN, "1")]).2
      = [mqtt_notify_type.shutdown, mqtt_notify_type.shutdown,
         mqtt_notify_type.shutdown]
    ∧ (message L0 initState MQTT_TOPIC_SHUTDOWN "0").1.shutdown_pending
      = false
    ∧ (message L0 (message L0 initState MQTT_TOPIC_SHUTDOWN "0").1
        MQTT_TOPIC_SHUTDOWN "1").1.shutdown_pending = true
    ∧ (message L0 (message L0 (message L0 initState MQTT_TOPIC_SHUTDOWN
        "0").1 MQTT_TOPIC_SHUTDOWN "1").1
        MQTT_TOPIC_SHUTDOWN "1").1.shutdown_pending = true := by
  refine ⟨?_, by decide, by decide, by decide, by decide⟩
  intro L s payload v rest hp hrest
  rw [message_on_shutdown]
  rcases hrest with hnil | ⟨r, hsep⟩
  · exact messageTyped_shutdown_nil L s _ v (hnil ▸ hp)
  · exact messageTyped_shutdown_sep L s _ v r (hsep ▸ hp)

/-- C3 witness: the general always-notify statement applied to the
concrete payload "1" from a state whose pending flag is already true. -/
theorem claim_C3_witness :
    message L0 { initState with shutdown_pending := true }
      MQTT_TOPIC_SHUTDOWN "1"
      = ({ initState with shutdown_pending := true },
         [mqtt_notify_type.shutdown]) := by
  have h := claim_C3.1 L0 { initState with shutdown_pending := true }
    "1" 1 [] (by decide) (Or.inl rfl)
  simpa using h

/-- C5: an epoch- or shutdown-topic payload whose numeric prefix is
followed by a character other than end-of-string or a space is dropped:
no state change and no notification. -/
theorem claim_C5 : ∀ (L : Lookup) (s : MqttState) (payload : String)
    (v : Nat) (c : Char) (r : List Char),
    strtoul payload.data = (v, c :: r) → c ≠ ' ' →
    message L s MQTT_TOPIC_EPOCH payload = (s, [])
    ∧ message L s MQTT_TOPIC_SHUTDOWN payload = (s, []) := by
  intro L s payload v c r hp hc
  constructor
  · rw [message_on_epoch]
    exact messageTyped_bad_trailer L s _ (by decide) _ v c r hp hc
  · rw [message_on_shutdown]
    exact messageTyped_bad_trailer L s _ (by decide) _ v c r hp hc

theorem strtoulSubject_none (l : List Char)
    (h : ∀ c ∈ l, isDecDigit c = false) : strtoulSubject l = none := by
  unfold strtoulSubject
  split
  · exact absurd (h '0' (List.mem_cons_self _ _)) (by decide)
  · exact absurd (h '0' (List.mem_cons_self _ _)) (by decide)
  · exact absurd (h '0' (List.mem_cons_self _ _)) (by decide)
  · rename_i c r hne1 hne2 hne3
    rw [if_neg]
    rw [h c (List.mem_cons_self _ _)]
    exact Bool.false_ne_true
  · rfl

theorem signStrip_other (c : Char) (r : List Char)
    (h1 : c ≠ '-') (h2 : c ≠ '+') : signStrip (c :: r) = (false, c :: r) := by
  unfold signStrip
  split
  · rename_i heq
    injection heq with hc hr
    exact absurd hc h1
  · rename_i heq
    injection heq with hc hr
    exact absurd hc h2
  · rfl

/-- A payload containing no decimal digit yields no conversion: the
value is 0 and `end` stays at the very start of the string. -/
theorem strtoul_no_digits (cs : List Char)
    (h : ∀ c ∈ cs, isDecDigit c = false) : strtoul cs = (0, cs) := by
  have hws : ∀ c ∈ cs.dropWhile isSpaceC, isDecDigit c = false :=
    fun c hc => h c ((List.dropWhile_suffix _).sublist.mem hc)
  unfold strtoul
  cases hd : cs.dropWhile isSpaceC with
  | nil => simp [signStrip, strtoulSubject]
  | cons c r =>
    have hr : ∀ x ∈ r, isDecDigit x = false :=
      fun x hx => hws x (hd ▸ List.mem_cons_of_mem _ hx)
    have hcr : ∀ x ∈ c :: r, isDecDigit x = false := fun x hx => hws x (hd ▸ hx)
    by_cases h1 : c = '-'
    · subst h1
      simp only [hd, show signStrip ('-' :: r) = (true, r) from rfl,
        strtoulSubject_none r hr]
    · by_cases h2 : c = '+'
      · subst h2
        simp only [hd, show signStrip ('+' :: r) = (false, r) from rfl,
          strtoulSubject_none r hr]
      · simp only [hd, signStrip_other c r h1 h2, strtoulSubject_none _ hcr]

/-- C5 witness: the payload "12x" (trailing garbage after the number) is
dropped on both numeric topics. -/
theorem claim_C5_witness :
    strtoul ("12x".data) = (12, ['x'])
    ∧ message L0 initState MQTT_TOPIC_SHUTDOWN "12x" = (initState, [])
    ∧ message L0 initState MQTT_TOPIC_EPOCH "12x" = (initState, []) := by
  have h := claim_C5 L0 initState "12x" 12 'x' [] (by decide) (by decide)
  exact ⟨by decide, h.2, h.1⟩

/-- C6 counterexample: the payload " " (one space) contains no digit at
all, yet on the shutdown topic it is NOT dropped: `strtoul` makes no
conversion and leaves `end` at the leading space, the trailer check
accepts the space, and the message is processed as the value 0, firing a
shutdown notification. -/
theorem claim_C6_cex :
    (∀ c ∈ (" " : String).data, isDecDigit c = false)
    ∧ message L0 initState MQTT_TOPIC_SHUTDOWN " "
      = ({ initState with shutdown_pending := false },
         [mqtt_notify_type.shutdown]) :=
  ⟨by decide, by decide⟩

/-- C6 (amended): on the numeric topics an empty payload parses as the
value 0 and is processed as such; a payload containing no digit at all
is dropped (no state change, no notification) when its first character
is not a space, while a digit-free payload that begins with a space is
accepted by the trailer check and processed as the value 0. -/
theorem claim_C6 :
    (∀ (L : Lookup) (s : MqttState),
      message L s MQTT_TOPIC_SHUTDOWN ""
        = ({ s with shutdown_pending := false }, [mqtt_notify_type.shutdown]))
    ∧ (∀ (L : Lookup) (s : MqttState),
      message L s MQTT_TOPIC_EPOCH "" = process_epoch L s 0 none)
    ∧ (∀ (L : Lookup) (s : MqttState) (payload : String) (c : Char)
        (r : List Char), payload.data = c :: r →
        (∀ d ∈ payload.data, isDecDigit d = false) → c ≠ ' ' →
        message L s MQTT_TOPIC_EPOCH payload = (s, [])
        ∧ message L s MQTT_TOPIC_SHUTDOWN payload = (s, []))
    ∧ (∀ (L : Lookup) (s : MqttState) (payload : String) (r : List Char),
        payload.data = ' ' :: r →
        (∀ d ∈ payload.data, isDecDigit d = false) →
        message L s MQTT_TOPIC_SHUTDOWN payload
          = ({ s with shutdown_pending := false },
             [mqtt_notify_type.shutdown])) := by
  refine ⟨?_, ?_, ?_, ?_⟩
  · intro L s
    rw [message_on_shutdown]
    have h := messageTyped_shutdown_nil L s ("" : String).data 0 (by decide)
    simpa using h
  · intro L s
    rw [message_on_epoch]
    have h := messageTyped_epoch_nil L s ("" : String).data 0 (by decide)
    simpa using h
  · intro L s payload c r hd hnod hc
    have hp : strtoul payload.data = (0, c :: r) := hd ▸ strtoul_no_digits _ hnod
    constructor
    · rw [message_on_epoch]
      exact messageTyped_bad_trailer L s _ (by decide) _ 0 c r hp hc
    · rw [message_on_shutdown]
      exact messageTyped_bad_trailer L s _ (by decide) _ 0 c r hp hc
  · intro L s payload r hd hnod
    have hp : strtoul payload.data = (0, ' ' :: r) := hd ▸ strtoul_no_digits _ hnod
    rw [message_on_shutdown]
    have h := messageTyped_shutdown_sep L s _ 0 r hp
    simpa using h

theorem epochAlgo_missing (L : Lookup) (names : List Char)
    (hsp : afterFirstSpace names = none) : epochAlgo L (some names) = none := by
  simp only [epochAlgo, hsp]

theorem epochAlgo_resolved (L : Lookup) (names nm : List Char)
    (hsp : afterFirstSpace names = some nm)
    (hge : 0 ≤ L.dagalgo_code (String.mk nm)) :
    epochAlgo L (some names) = some (L.dagalgo_code (String.mk nm)) := by
  simp only [epochAlgo, hsp]
  rw [if_neg (not_lt.mpr hge)]

theorem epochAlgo_unknown (L : Lookup) (names nm : List Char)
    (hsp : afterFirstSpace names = some nm)
    (hlt : L.dagalgo_code (String.mk nm) < 0) :
    epochAlgo L (some names) = none := by
  simp only [epochAlgo, hsp]
  rw [if_pos hlt]

theorem process_epoch_of_none (L : Lookup) (s : MqttState) (n : Nat)
    (names : Option (List Char)) (ha : epochAlgo L names = none) :
    process_epoch L s n names = (s, []) := by
  simp only [process_epoch, ha]

theorem process_epoch_of_some (L : Lookup) (s : MqttState) (n : Nat)
    (names : Option (List Char)) (a : Int) (ha : epochAlgo L names = some a) :
    process_epoch L s n names
      = if a = s.curr_algo ∧ n = s.curr_epoch then (s, [])
        else ({ s with curr_algo := a, curr_epoch := n % UINT16_MOD },
              [mqtt_notify_type.epoch]) := by
  simp only [process_epoch, ha]

theorem message_epoch_success (L : Lookup) (s : MqttState) (payload : String)
    (v : Nat) (names : Option (List Char)) (a : Int)
    (hmt : messageTyped L s mqtt_notify_type.epoch payload.data
           = process_epoch L s (v % UINT_MOD) names)
    (ha : epochAlgo L names = some a) (hs : s.curr_epoch < UINT16_MOD) :
    (message L s MQTT_TOPIC_EPOCH payload).1.curr_algo = a
    ∧ (message L s MQTT_TOPIC_EPOCH payload).1.curr_epoch
      = (v % UINT_MOD) % UINT16_MOD
    ∧ ((message L s MQTT_TOPIC_EPOCH payload).2 = [mqtt_notify_type.epoch]
       ↔ ¬(a = s.curr_algo ∧ v % UINT_MOD = s.curr_epoch)) := by
  rw [message_on_epoch, hmt, process_epoch_of_some L s _ names a ha]
  by_cases hc : a = s.curr_algo ∧ v % UINT_MOD = s.curr_epoch
  · rw [if_pos hc]
    refine ⟨hc.1.symm, ?_, by simp [hc]⟩
    have h2 := hc.2
    simp only [UINT16_MOD] at hs ⊢
    omega
  · rw [if_neg hc]
    exact ⟨rfl, rfl, by simp [hc]⟩

theorem message_epoch_drop (L : Lookup) (s : MqttState) (payload : String)
    (v : Nat) (names : Option (List Char))
    (hmt : messageTyped L s mqtt_notify_type.epoch payload.data
           = process_epoch L s (v % UINT_MOD) names)
    (ha : epochAlgo L names = none) :
    message L s MQTT_TOPIC_EPOCH payload = (s, []) := by
  rw [message_on_epoch, hmt, process_epoch_of_none _ _ _ _ ha]

/-- C1 counterexample: with a lookup resolving "ethash" to code 0, the
epoch payload "5 ethash" — exactly the form "n name" claimed valid —
is DROPPED: `process_epoch` is handed the text after the first space and
then demands a further space before the algorithm name, so a single
space-separated name means "algorithm name missing"; neither the
algorithm nor the epoch is updated and nothing is notified. -/
theorem claim_C1_cex :
    L0.dagalgo_code "ethash" = 0
    ∧ message L0 initState MQTT_TOPIC_EPOCH "5 ethash" = (initState, [])
    ∧ initState.curr_epoch ≠ 5
    ∧ initState.curr_algo ≠ 0 :=
  ⟨by decide, by decide, by decide, by decide⟩

/-- C1 (amended): an epoch payload parses as a number, then the text
after the FIRST space must itself contain a space, and the algorithm
name is everything after that second space (grammar "n x name" with the
middle segment ignored).  When the name resolves to a nonnegative code
the state becomes algorithm=code, epoch=n mod 2^16 (the `uint16_t`
store), with a notification iff (code, n) differs from the current pair;
a bare "n" payload uses the baseline `da_ethash`; a payload "n name"
with a single space-separated segment is dropped ("algorithm name
missing"), as is an unresolvable name — with no state change. -/
theorem claim_C1 : ∀ (L : Lookup) (s : MqttState) (payload : String)
    (v : Nat) (rest nm : List Char),
    (strtoul payload.data = (v, ' ' :: rest) →
      (afterFirstSpace rest = some nm →
        (0 ≤ L.dagalgo_code (String.mk nm) → s.curr_epoch < UINT16_MOD →
          (message L s MQTT_TOPIC_EPOCH payload).1.curr_algo
            = L.dagalgo_code (String.mk nm)
          ∧ (message L s MQTT_TOPIC_EPOCH payload).1.curr_epoch
            = (v % UINT_MOD) % UINT16_MOD
          ∧ ((message L s MQTT_TOPIC_EPOCH payload).2
              = [mqtt_notify_type.epoch]
             ↔ ¬(L.dagalgo_code (String.mk nm) = s.curr_algo
                 ∧ v % UINT_MOD = s.curr_epoch)))
        ∧ (L.dagalgo_code (String.mk nm) < 0 →
            message L s MQTT_TOPIC_EPOCH payload = (s, [])))
      ∧ (afterFirstSpace rest = none →
          message L s MQTT_TOPIC_EPOCH payload = (s, [])))
    ∧ (strtoul payload.data = (v, []) → 0 ≤ L.da_ethash →
        s.curr_epoch < UINT16_MOD →
        (message L s MQTT_TOPIC_EPOCH payload).1.curr_algo = L.da_ethash
        ∧ (message L s MQTT_TOPIC_EPOCH payload).1.curr_epoch
          = (v % UINT_MOD) % UINT16_MOD
        ∧ ((message L s MQTT_TOPIC_EPOCH payload).2 = [mqtt_notify_type.epoch]
           ↔ ¬(L.da_ethash = s.curr_algo ∧ v % UINT_MOD = s.curr_epoch))) := by
  intro L s payload v rest nm
  constructor
  · intro hp
    have hmt := messageTyped_epoch_sep L s payload.data v rest hp
    constructor
    · intro hsp
      constructor
      · intro hge hs
        exact message_epoch_success L s payload v (some rest) _ hmt
          (epochAlgo_resolved L rest nm hsp hge) hs
      · intro hlt
        exact message_epoch_drop L s payload v (some rest) hmt
          (epochAlgo_unknown L rest nm hsp hlt)
    · intro hsp
      exact message_epoch_drop L s payload v (some rest) hmt
        (epochAlgo_missing L rest hsp)
  · intro hp hge hs
    have hmt := messageTyped_epoch_nil L s payload.data v hp
    exact message_epoch_success L s payload v none _ hmt rfl hs

/-- C1 witness: the two-space payload "7 x ethash" resolves "ethash"
and sets algorithm 0 and epoch 7 with a notification; "5 foo" (a single
space-separated segment) is dropped. -/
theorem claim_C1_witness :
    (message L0 initState MQTT_TOPIC_EPOCH "7 x ethash").1.curr_algo
      = L0.dagalgo_code (String.mk ("ethash" : String).data)
    ∧ (message L0 initState MQTT_TOPIC_EPOCH "7 x ethash").1.curr_epoch
      = (7 % UINT_MOD) % UINT16_MOD
    ∧ message L0 initState MQTT_TOPIC_EPOCH "5 foo" = (initState, []) := by
  have h1 := (((claim_C1 L0 initState "7 x ethash" 7
    ("x ethash" : String).data ("ethash" : String).data).1
    (by decide)).1 (by decide)).1 (by decide) (by decide)
  have h2 := ((claim_C1 L0 initState "5 foo" 5 ("foo" : String).data
    []).1 (by decide)).2 (by decide)
  exact ⟨h1.1, h1.2.1, h2⟩

theorem process_epoch_idem (L : Lookup) (s : MqttState) (n : Nat)
    (names : Option (List Char)) (hn : n < UINT16_MOD) :
    process_epoch L (process_epoch L s n names).1 n names
      = ((process_epoch L s n names).1, []) := by
  cases ha : epochAlgo L names with
  | none => simp only [process_epoch, ha]
  | some a =>
    simp only [process_epoch, ha]
    by_cases hc : a = s.curr_algo ∧ n = s.curr_epoch
    · rw [if_pos hc]
      simp only [Prod.fst]
      rw [if_pos hc]
    · rw [if_neg hc]
      simp only [Prod.fst]
      rw [if_pos ⟨trivial, (Nat.mod_eq_of_lt hn).symm⟩]

/-- C4 counterexample: the epoch payload "65536" fed twice from the
initial state produces TWO epoch notifications: `curr_epoch` is a
`uint16_t`, so the stored epoch is 65536 mod 2^16 = 0, and on the second
message the comparison of the parsed 65536 against the stored 0 reports
a change again. -/
theorem claim_C4_cex :
    (run L0 initState
      [(MQTT_TOPIC_EPOCH, "65536"), (MQTT_TOPIC_EPOCH, "65536")]).2
      = [mqtt_notify_type.epoch, mqtt_notify_type.epoch] := by
  decide

/-- C4 (amended): for epoch payloads whose parsed value fits in 16 bits
(n mod 2^32 < 2^16), processing the identical message a second time
immediately after the first changes nothing and emits no notification —
so when the first processing notifies, exactly one notification results
from the pair.  For larger parsed values the `uint16_t` truncation of
`curr_epoch` makes every repetition look like a change again. -/
theorem claim_C4 : ∀ (L : Lookup) (s : MqttState) (payload : String),
    (strtoul payload.data).1 % UINT_MOD < UINT16_MOD →
    message L (message L s MQTT_TOPIC_EPOCH payload).1
        MQTT_TOPIC_EPOCH payload
      = ((message L s MQTT_TOPIC_EPOCH payload).1, []) := by
  intro L s payload hn
  rcases hp : strtoul payload.data with ⟨v, rest⟩
  rw [hp] at hn
  simp only at hn
  cases rest with
  | nil =>
    have h1 := messageTyped_epoch_nil L s payload.data v hp
    rw [message_on_epoch, message_on_epoch, h1]
    have h2 := messageTyped_epoch_nil L
      (process_epoch L s (v % UINT_MOD) none).1 payload.data v hp
    rw [h2]
    exact process_epoch_idem L s (v % UINT_MOD) none hn
  | cons c r =>
    by_cases hc : c = ' '
    · subst hc
      have h1 := messageTyped_epoch_sep L s payload.data v r hp
      rw [message_on_epoch, message_on_epoch, h1]
      have h2 := messageTyped_epoch_sep L
        (process_epoch L s (v % UINT_MOD) (some r)).1 payload.data v r hp
      rw [h2]
      exact process_epoch_idem L s (v % UINT_MOD) (some r) hn
    · have h1 := messageTyped_bad_trailer L s mqtt_notify_type.epoch
        (by decide) payload.data v c r hp hc
      rw [message_on_epoch, message_on_epoch, h1]
      exact messageTyped_bad_trailer L _ mqtt_notify_type.epoch
        (by decide) payload.data v c r hp hc

/-- C4 witness: the payload "5" (which fits in 16 bits) absorbed on
repetition: the second identical message leaves the state unchanged and
notifies nothing. -/
theorem claim_C4_witness :
    (strtoul ("5" : String).data).1 % UINT_MOD < UINT16_MOD
    ∧ message L0 (message L0 initState MQTT_TOPIC_EPOCH "5").1
        MQTT_TOPIC_EPOCH "5"
      = ((message L0 initState MQTT_TOPIC_EPOCH "5").1, []) :=
  ⟨by decide, claim_C4 L0 initState "5" (by decide)⟩

theorem epochAlgo_nonneg (L : Lookup) (hE : 0 ≤ L.da_ethash)
    (names : Option (List Char)) (a : Int) (ha : epochAlgo L names = some a) :
    0 ≤ a := by
  cases names with
  | none =>
    simp only [epochAlgo] at ha
    exact (Option.some_inj.mp ha) ▸ hE
  | some ns =>
    simp only [epochAlgo] at ha
    cases hsp : afterFirstSpace ns with
    | none =>
      simp only [hsp] at ha
      exact Option.noConfusion ha
    | some nm =>
      simp only [hsp] at ha
      by_cases hlt : L.dagalgo_code (String.mk nm) < 0
      · rw [if_pos hlt] at ha
        exact Option.noConfusion ha
      · rw [if_neg hlt] at ha
        have he := Option.some_inj.mp ha
        omega

theorem process_epoch_nonneg (L : Lookup) (hE : 0 ≤ L.da_ethash)
    (s : MqttState) (n : Nat) (names : Option (List Char))
    (hsome : (epochAlgo L names).isSome = true) :
    0 ≤ (process_epoch L s n names).1.curr_algo := by
  obtain ⟨a, ha⟩ := Option.isSome_iff_exists.mp hsome
  have hna := epochAlgo_nonneg L hE names a ha
  rw [process_epoch_of_some L s n names a ha]
  by_cases hc : a = s.curr_algo ∧ n = s.curr_epoch
  · rw [if_pos hc]
    exact hc.1 ▸ hna
  · rw [if_neg hc]
    exact hna

theorem process_epoch_algo_spec (L : Lookup) (hE : 0 ≤ L.da_ethash)
    (s : MqttState) (n : Nat) (names : Option (List Char)) :
    (process_epoch L s n names).1.curr_algo = s.curr_algo
    ∨ (0 ≤ (process_epoch L s n names).1.curr_algo
       ∧ (process_epoch L s n names).2 = [mqtt_notify_type.epoch]) := by
  cases ha : epochAlgo L names with
  | none =>
    left
    rw [process_epoch_of_none L s n names ha]
  | some a =>
    rw [process_epoch_of_some L s n names a ha]
    by_cases hc : a = s.curr_algo ∧ n = s.curr_epoch
    · left
      rw [if_pos hc]
    · right
      rw [if_neg hc]
      exact ⟨epochAlgo_nonneg L hE names a ha, rfl⟩

theorem messageTyped_algo_spec (L : Lookup) (hE : 0 ≤ L.da_ethash)
    (s : MqttState) (t : mqtt_notify_type) (buf : List Char) :
    (messageTyped L s t buf).1.curr_algo = s.curr_algo
    ∨ (0 ≤ (messageTyped L s t buf).1.curr_algo
       ∧ (messageTyped L s t buf).2 = [mqtt_notify_type.epoch]
       ∧ t = mqtt_notify_type.epoch) := by
  by_cases ht : t = mqtt_notify_type.mined_state
  · left
    rw [messageTyped, if_pos ht]
  · rcases hp : strtoul buf with ⟨v, rest⟩
    cases rest with
    | nil =>
      by_cases hte : t = mqtt_notify_type.epoch
      · subst hte
        rw [messageTyped_epoch_nil L s buf v hp]
        rcases process_epoch_algo_spec L hE s (v % UINT_MOD) none with h | h
        · left; exact h
        · right; exact ⟨h.1, h.2, rfl⟩
      · have hts : t = mqtt_notify_type.shutdown := by
          cases t <;> simp_all
        subst hts
        left
        rw [messageTyped_shutdown_nil L s buf v hp]
    | cons c r =>
      by_cases hc : c = ' '
      · subst hc
        by_cases hte : t = mqtt_notify_type.epoch
        · subst hte
          rw [messageTyped_epoch_sep L s buf v r hp]
          rcases process_epoch_algo_spec L hE s (v % UINT_MOD) (some r)
            with h | h
          · left; exact h
          · right; exact ⟨h.1, h.2, rfl⟩
        · have hts : t = mqtt_notify_type.shutdown := by
            cases t <;> simp_all
          subst hts
          left
          rw [messageTyped_shutdown_sep L s buf v r hp]
      · left
        rw [messageTyped_bad_trailer L s t ht buf v c r hp hc]

theorem message_algo_spec (L : Lookup) (hE : 0 ≤ L.da_ethash)
    (s : MqttState) (topic payload : String) :
    (message L s topic payload).1.curr_algo = s.curr_algo
    ∨ (0 ≤ (message L s topic payload).1.curr_algo
       ∧ (message L s topic payload).2 = [mqtt_notify_type.epoch]
       ∧ topic = MQTT_TOPIC_EPOCH) := by
  by_cases h1 : topic = MQTT_TOPIC_EPOCH
  · subst h1
    rw [message_on_epoch]
    rcases messageTyped_algo_spec L hE s mqtt_notify_type.epoch payload.data
      with h | h
    · left; exact h
    · right; exact ⟨h.1, h.2.1, rfl⟩
  · by_cases h2 : topic = MQTT_TOPIC_MINED_STATE
    · subst h2
      left
      rw [message_on_mined, messageTyped, if_pos rfl]
    · by_cases h3 : topic = MQTT_TOPIC_SHUTDOWN
      · subst h3
        rw [message_on_shutdown]
        rcases messageTyped_algo_spec L hE s mqtt_notify_type.shutdown
          payload.data with h | h
        · left; exact h
        · exact absurd h.2.2 (by decide)
      · left
        rw [message, if_neg h1, if_neg h2, if_neg h3]

/-- C9: with a nonnegative baseline code (as `da_ethash` is in the real
algorithm table), every successful epoch decode leaves `curr_algo`
nonnegative (so never the unset value -1); once `curr_algo` is not -1 no
message — and no whole message sequence — ever takes it back to -1; and
the only way any message changes `curr_algo` at all is a successfully
decoded, differing epoch-topic message, which also fires the epoch
notification. -/
theorem claim_C9 : ∀ (L : Lookup), 0 ≤ L.da_ethash →
    (∀ (s : MqttState) (n : Nat) (names : Option (List Char)),
      (epochAlgo L names).isSome = true →
      0 ≤ (process_epoch L s n names).1.curr_algo)
    ∧ (∀ (s : MqttState) (topic payload : String),
      s.curr_algo ≠ -1 → (message L s topic payload).1.curr_algo ≠ -1)
    ∧ (∀ (s : MqttState) (topic payload : String),
      (message L s topic payload).1.curr_algo ≠ s.curr_algo →
      topic = MQTT_TOPIC_EPOCH
      ∧ (message L s topic payload).2 = [mqtt_notify_type.epoch]
      ∧ 0 ≤ (message L s topic payload).1.curr_algo)
    ∧ (∀ (s : MqttState) (msgs : List (String × String)),
      s.curr_algo ≠ -1 → (run L s msgs).1.curr_algo ≠ -1) := by
  intro L hE
  have hstep := message_algo_spec L hE
  have hpres : ∀ (s : MqttState) (topic payload : String),
      s.curr_algo ≠ -1 → (message L s topic payload).1.curr_algo ≠ -1 := by
    intro s topic payload hne
    rcases hstep s topic payload with h | h
    · rw [h]; exact hne
    · intro hcon
      rw [hcon] at h
      exact absurd h.1 (by decide)
  refine ⟨process_epoch_nonneg L hE, hpres, ?_, ?_⟩
  · intro s topic payload hch
    rcases hstep s topic payload with h | h
    · exact absurd h hch
    · exact ⟨h.2.2, h.2.1, h.1⟩
  · intro s msgs
    induction msgs generalizing s with
    | nil => exact fun h => h
    | cons m rest ih =>
      obtain ⟨tp, pl⟩ := m
      intro h
      simp only [run]
      exact ih _ (hpres s tp pl h)

/-- C9 witness: with the concrete lookup (baseline code 0), a bare
epoch payload sets a nonnegative algorithm; a state with algorithm 0
keeps it distinct from -1 across a run; and the epoch message "5" from
the initial state is exactly the change case. -/
theorem claim_C9_witness :
    0 ≤ (process_epoch L0 initState 5 none).1.curr_algo
    ∧ ((run L0 { initState with curr_algo := 0 }
        [(MQTT_TOPIC_SHUTDOWN, "1")]).1.curr_algo ≠ -1)
    ∧ (MQTT_TOPIC_EPOCH = MQTT_TOPIC_EPOCH
       ∧ (message L0 initState MQTT_TOPIC_EPOCH "5").2
         = [mqtt_notify_type.epoch]
       ∧ 0 ≤ (message L0 initState MQTT_TOPIC_EPOCH "5").1.curr_algo) := by
  have h := claim_C9 L0 (by decide)
  exact ⟨h.1 initState 5 none (by decide),
         h.2.2.2 { initState with curr_algo := 0 }
           [(MQTT_TOPIC_SHUTDOWN, "1")] (by decide),
         h.2.2.1 initState MQTT_TOPIC_EPOCH "5" (by decide)⟩

/-- C6 witness: the empty payload is processed as 0 on the shutdown
topic; "abc" (no digits, first character not a space) is dropped on the
epoch topic; "  " (two spaces, no digits) is processed as 0 on the
shutdown topic. -/
theorem claim_C6_witness :
    message L0 initState MQTT_TOPIC_SHUTDOWN ""
      = ({ initState with shutdown_pending := false },
         [mqtt_notify_type.shutdown])
    ∧ message L0 initState MQTT_TOPIC_EPOCH "abc" = (initState, [])
    ∧ message L0 initState MQTT_TOPIC_SHUTDOWN "  "
      = ({ initState with shutdown_pending := false },
         [mqtt_notify_type.shutdown]) :=
  ⟨claim_C6.1 L0 initState,
   (claim_C6.2.2.1 L0 initState "abc" 'a' ['b', 'c'] (by decide) (by decide)
     (by decide)).1,
   claim_C6.2.2.2 L0 initState "  " [' '] (by decide) (by decide)⟩

end Dagd
